import Mathlib

/-!
Verification development for the `liaison` HTTP-client engine
(`src/packages/liaison/src/types/concrete.ts`, `src/scripts/start.js`
interception module, `coerceError` from the `outil` package).

The embedding below translates the runtime parts of the source into Lean:
JavaScript values become the inductive `Val`, config objects become finite
key maps `Conf`, promises that may reject become `Except Thrown`, and the
mutable instance observed at the distinct suspension points of one call is
passed explicitly (see `liaisonFetchT`).
-/

/-- JavaScript-style runtime values threaded through schemas and bodies. -/
inductive Val where
  | vundefined
  | vnull
  | vbool (b : Bool)
  | vnum (n : Int)
  | vstr (s : String)
  | vlist (xs : List Val)
  | vrec (fields : List (String × Val))

/-- The uniform error shape (`name` / `message`) of a JavaScript `Error`. -/
structure LErr where
  name : String
  message : String

/-- A thrown/rejected JavaScript value: either a proper `Error` or any raw value. -/
inductive Thrown where
  | err (e : LErr)
  | raw (v : Val)

/-- Escape of a single character for the JSON rendering used by `JSON.stringify`. -/
def jsonEscChar (c : Char) : String :=
  if c = '"' then "\\\"" else if c = '\\' then "\\\\" else String.singleton c

/-- Escape a whole string for JSON rendering. -/
def jsonEscape (s : String) : String :=
  s.toList.foldl (fun a c => a ++ jsonEscChar c) ""

/-- Quote a string as a JSON string literal. -/
def jsonQuote (s : String) : String :=
  "\"" ++ jsonEscape s ++ "\""

mutual

/-- Embedding of `JSON.stringify`: `none` models the `undefined` result on
an `undefined` input (the source then builds `new Error(undefined)`). -/
def jsonStringify : Val → Option String
  | .vundefined => none
  | .vnull => some "null"
  | .vbool b => some (if b then "true" else "false")
  | .vnum n => some (toString n)
  | .vstr s => some (jsonQuote s)
  | .vlist xs => some ("[" ++ String.intercalate "," (jsonList xs) ++ "]")
  | .vrec fs => some ("\x7b" ++ String.intercalate "," (jsonFields fs) ++ "\x7d")

/-- Render the elements of a JSON array (undefined elements print as null). -/
def jsonList : List Val → List String
  | [] => []
  | x :: rest => (jsonStringify x).getD "null" :: jsonList rest

/-- Render the fields of a JSON object (undefined-valued fields are skipped). -/
def jsonFields : List (String × Val) → List String
  | [] => []
  | (k, v) :: rest =>
    match jsonStringify v with
    | none => jsonFields rest
    | some sv => (jsonQuote k ++ ":" ++ sv) :: jsonFields rest

end

/-- Embedding of `coerceError` (src/unnamed/part_001, lines 194-203): an
`Error` instance passes through unchanged; any other thrown value is wrapped
in a new `Error` whose message is its `JSON.stringify` serialization
(`new Error(undefined)` yields an empty message). -/
def coerceError : Thrown → LErr
  | .err e => e
  | .raw v => ⟨"Error", (jsonStringify v).getD ""⟩

/-- A schema validator capability: embedding of a Zod schema's
`parseAsync`, which on success returns the (possibly transformed) value and
on failure rejects with a validation message. -/
def SchemaM : Type := Val → Except String Val

/-- Embedding of `z.unknown()`: accepts any value and passes it through. -/
def zUnknown : SchemaM := fun v => .ok v

/-- Structured view of a URL: the part before `?` and the ordered list of
query parameters, abstracting `new URL(...)` / `URLSearchParams`. -/
structure UrlV where
  base : String
  query : List (String × String)

/-- Embedding of the `Request` values the engine builds: the parsed URL plus
the init fields it actually consumes (`method`, `headers`, `body`); the
`Request` constructor ignores unknown init members (`name`, leftover
`override`, ...), so only these are kept. Absent fields are `undefined`. -/
structure RequestV where
  url : UrlV
  method : Val
  headers : Val
  body : Val

/-- Embedding of the platform `Response` descriptor at the transport
boundary: status data plus the materialized behaviours of its body readers
(`textV` is what `res.text()` yields, `jsonV` what `res.json()` yields —
the latter may reject on malformed JSON, which is the transport's business). -/
structure ResponseV where
  status : Nat
  statusText : String
  rtype : String
  headers : List (String × String)
  textV : String
  jsonV : Except Thrown Val

/-- The WHATWG fetch definition of `Response.ok` that the source relies on:
status in the inclusive range 200-299. -/
def ResponseV.ok (r : ResponseV) : Bool :=
  200 ≤ r.status && r.status ≤ 299

/-- The keys of the construction/call-time config surface
(`Concrete.Config` plus the calltime additions). -/
inductive CKey where
  | name
  | url
  | method
  | headers
  | params
  | body
  | response
  | handleResponse
deriving DecidableEq

/-- A value stored under a config key: plain data (url, method, schema
inputs, ...), a schema factory (`CreateSchema`, i.e. `typeof === "function"`),
a concrete schema object, or the `handleResponse` callback. -/
inductive CVal where
  | prim (v : Val)
  | schemaFn (f : Unit → SchemaM)
  | schemaV (s : SchemaM)
  | handlerV (h : ResponseV → Except Thrown Val)

/-- A config object: a finite map from keys to optionally-present values.
`none` models an absent key. -/
def Conf : Type := CKey → Option CVal

/-- The empty config object. -/
def emptyConf : Conf := fun _ => none

/-- Embedding of the JS object spread `\x7b...a, ...b\x7d`: a key defined in
`b` wins, otherwise `a` supplies it. -/
def spread (a b : Conf) : Conf := fun k =>
  match b k with
  | some v => some v
  | none => a k

/-- Rest-destructuring `\x7b x, y, ...rest\x7d = m`: the map with the pulled
keys removed. -/
def removeKeys (m : Conf) (ks : List CKey) : Conf := fun k =>
  if k ∈ ks then none else m k

/-- Per-event interceptor callback signatures (the `CallbackMap` interface
in the interception module); a callback may also throw. -/
def ReqCb : Type := RequestV → Option String → Except Thrown RequestV

/-- Response interceptor signature: `(response, request, callStack?)`. -/
def ResCb : Type := ResponseV → RequestV → Option String → Except Thrown ResponseV

/-- The `when` tag passed to error interceptors; the source uses the string
literals "request" / "response". -/
inductive Stage where
  | request
  | response
deriving DecidableEq

/-- Error interceptor signature: `(error, request, when, callStack?)`. -/
def ErrCb : Type := LErr → RequestV → Stage → Option String → Except Thrown LErr

/-- The per-instance interceptor lists (`InterceptionHandler.interceptors`). -/
structure Registry where
  request : List ReqCb
  response : List ResCb
  error : List ErrCb

/-- The registry a fresh `InterceptionHandler` starts with. -/
def emptyReg : Registry := ⟨[], [], []⟩

/-- A `Liaison` instance: its own (explicitly passed) config, its own
interceptor lists, and optionally the instance it extends. The `extends`
back-reference makes the extension chain strictly linear. -/
inductive Liaison where
  | root (own : Conf) (ints : Registry)
  | extend (parent : Liaison) (own : Conf) (ints : Registry)

/-- The `partial` field of an instance (its own stored config). -/
def Liaison.own : Liaison → Conf
  | .root c _ => c
  | .extend _ c _ => c

/-- The instance's own interceptor registry. -/
def Liaison.ints : Liaison → Registry
  | .root _ r => r
  | .extend _ _ r => r

/-- The `extends` back-reference, when present. -/
def Liaison.parentOpt : Liaison → Option Liaison
  | .root _ _ => none
  | .extend p _ _ => some p

/-- The `while (ext) \x7b opts = \x7b...ext.partial, ...opts\x7d; ext =
ext.extends \x7d` loop of the `config` getter: each ancestor's config is
merged underneath the accumulator. -/
def mergeUp : Liaison → Conf → Conf
  | .root pc _, acc => spread pc acc
  | .extend pp pc _, acc => mergeUp pp (spread pc acc)

/-- Is a stored slot nullish (so that `??=` assigns)? -/
def isNullish : Option CVal → Bool
  | none => true
  | some (.prim .vundefined) => true
  | some (.prim .vnull) => true
  | _ => false

/-- The loop body `opts[key] ??= z.unknown(); if (typeof opts[key] ===
"function") opts[key] = opts[key](z)` for one schema-bearing slot. -/
def materializeSlot (v : Option CVal) : Option CVal :=
  let v1 := if isNullish v then some (.schemaV zUnknown) else v
  match v1 with
  | some (.schemaFn f) => some (.schemaV (f ()))
  | x => x

/-- The schema-bearing keys (`SchemaKeys` in the source). -/
def schemaKeys : List CKey := [.params, .body, .response]

/-- Apply the schema-materialization loop of the `config` getter to every
schema-bearing key of a config object. -/
def materialize (c : Conf) : Conf := fun k =>
  if k ∈ schemaKeys then materializeSlot (c k) else c k

/-- Embedding of the `config` getter. It returns the resolved config
TOGETHER with the post-read instance, because the getter is not pure: when
the instance has no `extends`, the local `opts` still aliases
`this.partial` (the loop that would re-bind it to a fresh spread object
never runs), so the `??=` defaulting and the factory invocation write the
materialized schemas into the instance's own stored config. When a parent
exists, the first `\x7b...ext.partial, ...opts\x7d` copies into a fresh
object and no stored config is written. -/
def configGet : Liaison → Conf × Liaison
  | .root c ints => (materialize c, .root (materialize c) ints)
  | .extend p c ints => (materialize (mergeUp p c), .extend p c ints)

/-- The walk of the `chain` getter before the reverse: push the current
instance, then follow `extends` upward (leaf first). -/
def walkUp : Liaison → List Liaison
  | .root c r => [.root c r]
  | .extend p c r => .extend p c r :: walkUp p

/-- The `chain` getter's ordering: the walked list reversed, i.e. earliest
extend (root) first.  The object keys `i-name` it builds are unique (the
index is part of the key) and non-numeric, so `Object.values` preserves
exactly this insertion order. -/
def chainList (l : Liaison) : List Liaison :=
  (walkUp l).reverse

/-- Embedding of `#getInterceptors("request")`: the per-instance request
lists of the chain, flattened in chain order. -/
def getRequestInterceptors (l : Liaison) : List ReqCb :=
  ((chainList l).map (fun e => e.ints.request)).flatten

/-- Embedding of `#getInterceptors("response")`. -/
def getResponseInterceptors (l : Liaison) : List ResCb :=
  ((chainList l).map (fun e => e.ints.response)).flatten

/-- Embedding of `#getInterceptors("error")`. -/
def getErrorInterceptors (l : Liaison) : List ErrCb :=
  ((chainList l).map (fun e => e.ints.error)).flatten

/-- Embedding of `addInterceptor("request", cb)`: push onto the instance's
own request list (registration order is list order). -/
def addRequestInterceptor (l : Liaison) (cb : ReqCb) : Liaison :=
  match l with
  | .root c r => .root c ⟨r.request ++ [cb], r.response, r.error⟩
  | .extend p c r => .extend p c ⟨r.request ++ [cb], r.response, r.error⟩

/-- Embedding of `InterceptionHandler.createRequestPipe` applied to an
accumulator: `cbs.reduce(async (a, e) => e(await a, ...ctx),
Promise.resolve(acc))` — a strict left-to-right fold where each callback
receives the previous callback's resolved output plus the shared context,
and a rejection short-circuits the rest. -/
def runRequestPipe : List ReqCb → RequestV → Option String → Except Thrown RequestV
  | [], acc, _ => .ok acc
  | cb :: rest, acc, stack =>
    match cb acc stack with
    | .ok a => runRequestPipe rest a stack
    | .error t => .error t

/-- Embedding of `createResponsePipe` (same reduce shape, response context). -/
def runResponsePipe : List ResCb → ResponseV → RequestV → Option String → Except Thrown ResponseV
  | [], acc, _, _ => .ok acc
  | cb :: rest, acc, req, stack =>
    match cb acc req stack with
    | .ok a => runResponsePipe rest a req stack
    | .error t => .error t

/-- Embedding of `createErrorPipe` (same reduce shape, error context). -/
def runErrorPipe : List ErrCb → LErr → RequestV → Stage → Option String → Except Thrown LErr
  | [], acc, _, _, _ => .ok acc
  | cb :: rest, acc, req, stage, stack =>
    match cb acc req stage stack with
    | .ok a => runErrorPipe rest a req stage stack
    | .error t => .error t

/-- Does the text start with the pattern (both as character lists)? -/
def charsStartWith : List Char → List Char → Bool
  | [], _ => true
  | _ :: _, [] => false
  | a :: as, b :: bs => a == b && charsStartWith as bs

/-- Does the pattern occur anywhere in the text? -/
def charsContain (pat : List Char) : List Char → Bool
  | [] => pat.isEmpty
  | c :: rest => charsStartWith pat (c :: rest) || charsContain pat rest

/-- Substring test modelling JS `String.prototype.includes`. -/
def strIncludes (s pat : String) : Bool :=
  charsContain pat.toList s.toList

/-- Break a character list at the first occurrence of a separator; also
report whether the separator occurred. -/
def breakAtChar (sep : Char) : List Char → List Char × Option (List Char)
  | [] => ([], none)
  | c :: rest =>
    if c = sep then ([], some rest)
    else
      match breakAtChar sep rest with
      | (pre, post) => (c :: pre, post)

/-- Split a character list on every occurrence of a separator. -/
def splitOnChar (sep : Char) : List Char → List (List Char)
  | [] => [[]]
  | c :: rest =>
    match splitOnChar sep rest with
    | [] => [[c]]
    | g :: gs => if c = sep then [] :: g :: gs else (c :: g) :: gs

/-- Split one `k=v` query component at its first `=`. -/
def parseQueryPair (cs : List Char) : String × String :=
  match breakAtChar '=' cs with
  | (k, none) => (String.mk k, "")
  | (k, some v) => (String.mk k, String.mk v)

/-- Parse a URL string into base and query components. This models the
WHATWG URL parse the `Request` constructor performs, restricted to what the
engine observes (no percent decoding; every string parses, as in a browser
context with a base URL). -/
def parseUrlString (s : String) : UrlV :=
  match breakAtChar '?' s.toList with
  | (base, none) => ⟨String.mk base, []⟩
  | (base, some q) =>
    ⟨String.mk base,
     if q.isEmpty then [] else (splitOnChar '&' q).map parseQueryPair⟩

/-- Build a `Request` from a URL and an init object (`new Request(url,
init)` with an explicit body argument; the first construction in `#fetch`
passes no body, i.e. `undefined`). -/
def mkRequest (u : UrlV) (init : Conf) (bodyV : Val) : RequestV :=
  ⟨u,
   match init CKey.method with
   | some (.prim v) => v
   | _ => .vundefined,
   match init CKey.headers with
   | some (.prim v) => v
   | _ => .vundefined,
   bodyV⟩

/-- A validated URL param value: a string or an array of strings. -/
inductive ParamVal where
  | pstr (s : String)
  | plist (ss : List String)

/-- The `[value].flat()` step of `setUrlParams`: a plain string contributes
itself once, an array contributes its elements in order. -/
def flatParam : ParamVal → List String
  | .pstr s => [s]
  | .plist ss => ss

/-- Embedding of `setUrlParams`: append each param entry to the query
string via `url.searchParams.append`, one occurrence per flattened value,
entries in record order.  Returns the resulting URL (the source re-wraps it
in a `new Request(url)`). -/
def setUrlParams (info : String) (params : List (String × ParamVal)) : UrlV :=
  let req := parseUrlString info
  params.foldl
    (fun u kv => ⟨u.base, u.query ++ (flatParam kv.2).map (fun v => (kv.1, v))⟩)
    req

/-- Check that a list of JS values is all strings (the `z.array(z.string())`
branch of the base param schema). -/
def allStrings : List Val → Option (List String)
  | [] => some []
  | .vstr s :: rest => (allStrings rest).map (fun r => s :: r)
  | _ => none

/-- One field of the `z.record(z.union([z.array(z.string()), z.string()]))`
check. -/
def valToParamEntry : Val → Option ParamVal
  | .vstr s => some (.pstr s)
  | .vlist xs => (allStrings xs).map (fun ss => .plist ss)
  | _ => none

/-- All fields of the record check, preserving insertion order
(`Object.entries` order). -/
def fieldsToParams : List (String × Val) → Option (List (String × ParamVal))
  | [] => some []
  | (k, v) :: rest =>
    match valToParamEntry v, fieldsToParams rest with
    | some pv, some r => some ((k, pv) :: r)
    | _, _ => none

/-- The record branch of `baseParamSchema`: a flat record of string or
string-array values. -/
def valToParamRecord : Val → Option (List (String × ParamVal))
  | .vrec fields => fieldsToParams fields
  | _ => none

/-- The `addErrorMap` prefix the engine attaches to a schema's validation
message at each `parseAsync` call site. -/
def addErrorMapMsg (schemaType msg : String) : String :=
  schemaType ++ " schema | " ++ msg

/-- The message of `baseParamSchema`'s union error map: the serialization
error raised when the params schema's output is not representable as query
parameters.  `defaultError` stands for `ctx.defaultError`, the message the
lower-precedence maps would have produced. -/
def serializationErrMsg (defaultError : String) : String :=
  "URL param schema must produce a value that can be serializable. (Record<string, string | string[]>) | " ++ defaultError

/-- The default issue message of a failed Zod union, fed to the error maps. -/
def unionDefaultMsg : String := "Invalid input"

/-- Run a schema's `parseAsync(input, addErrorMap(tag))`: on failure the
validator's message is wrapped with the call-site prefix and surfaces as a
`ZodError`. -/
def parseWithMap (s : SchemaM) (tag : String) (v : Val) : Except LErr Val :=
  match s v with
  | .ok out => .ok out
  | .error m => .error ⟨"ZodError", addErrorMapMsg tag m⟩

/-- Embedding of `paramSchema.pipe(baseParamSchema).parseAsync(paramsInput,
addErrorMap("URL params"))`: first the user params schema runs (its failure
gets the generic call-site prefix); its output must then satisfy
`baseParamSchema` — `undefined` (transformed to the empty record by
`.transform(v => v ?? \x7b\x7d)`) or a flat record of string or
string-array values — otherwise the union's own error map produces the
serialization error. -/
def parseParamsPiped (ps : SchemaM) (input : Val) : Except LErr (List (String × ParamVal)) :=
  match ps input with
  | .error m => .error ⟨"ZodError", addErrorMapMsg "URL params" m⟩
  | .ok out =>
    match out with
    | .vundefined => .ok []
    | v =>
      match valToParamRecord v with
      | some r => .ok r
      | none => .error ⟨"ZodError", serializationErrMsg (addErrorMapMsg "URL params" unionDefaultMsg)⟩

/-- ASCII lowercasing of a header name. -/
def lowerStr (s : String) : String :=
  String.mk (s.toList.map Char.toLower)

/-- Case-insensitive header lookup (`Headers.prototype.get`). -/
def headersGet (hs : List (String × String)) (nm : String) : Option String :=
  (hs.find? (fun p => lowerStr p.1 == lowerStr nm)).map (fun p => p.2)

/-- Embedding of `unwrapRespone` (sic): a content-type containing
"application/json" materializes the body via `res.json()`, anything else
via `res.text()`. -/
def unwrapRespone (r : ResponseV) : Except Thrown Val :=
  let type := (headersGet r.headers "content-type").getD ""
  if strIncludes type "application/json" then r.jsonV else .ok (.vstr r.textV)

/-- Embedding of `handleServerError`: a successful status (`res.ok`) passes
the response through as is; otherwise an `Error` is thrown whose message
joins the status code, the response type, the status text (after an
unbalanced opening quote, as in the source template) and the body read as
text. -/
def handleServerError (res : ResponseV) : Except Thrown ResponseV :=
  if res.ok then .ok res
  else
    .error (.err ⟨"Error",
      "code: " ++ toString res.status ++ ", " ++
      "type: " ++ res.rtype ++ ", " ++
      "text: \"" ++ res.statusText ++ ", " ++
      "server-response: " ++ res.textV⟩)

/-- A call-time `override` value.  The typed surface declares it as a
function of the resolved instance config, but the claim set also speaks of
a plain object fragment, so both runtime shapes are represented. -/
inductive OverrideV where
  | ofn (f : Conf → Conf)
  | oobj (frag : Conf)

/-- The call-time config: the data fields plus the separately-typed
`override`.  (In the source the `override` key also rides along in the
object spread and ends up among the unknown init members the `Request`
constructor ignores, so keeping it separate is observation-equivalent.) -/
structure CallConf where
  conf : Conf
  override : Option OverrideV

/-- A call with no argument (`config ?? \x7b\x7d`). -/
def emptyCall : CallConf := ⟨emptyConf, none⟩

/-- Embedding of `callConfig.override?.(instanceConfig)`: absent override
gives no fragment; a function override is invoked with the resolved
instance config; optional-calling a non-function value throws a
`TypeError` (JS semantics of `x?.()`), which rejects `#fetch` directly —
this line sits outside both `.catch` chains. -/
def applyOverride : Option OverrideV → Conf → Except Thrown (Option Conf)
  | none, _ => .ok none
  | some (.ofn f), c => .ok (some (f c))
  | some (.oobj _), _ => .error (.err ⟨"TypeError", "callConfig.override is not a function"⟩)

/-- The `url: stringUrl = "somehow a missing URL found its way"`
destructuring default: the merged config's `url` when it is a defined
string, the placeholder literal otherwise. -/
def resolveUrlString (m : Conf) : String :=
  match m CKey.url with
  | some (.prim (.vstr s)) => s
  | _ => "somehow a missing URL found its way"

/-- Read a data-valued key out of a config map (absent keys are
`undefined`, exactly what destructuring yields). -/
def inputVal (m : Conf) (k : CKey) : Val :=
  match m k with
  | some (.prim v) => v
  | _ => .vundefined

/-- Read a materialized schema slot out of the resolved instance config.
After `configGet` the three schema keys always hold concrete schema
objects for configs built through the typed surface; the fallback branch
is unreachable for those. -/
def slotSchema (c : Conf) (k : CKey) : SchemaM :=
  match c k with
  | some (.schemaV s) => s
  | _ => zUnknown

/-- Read the optional `handleResponse` callback out of the resolved
instance config. -/
def slotHandler (c : Conf) : Option (ResponseV → Except Thrown Val) :=
  match c CKey.handleResponse with
  | some (.handlerV h) => some h
  | _ => none

/-- The instance config with the schema-bearing fields and the unwrap
callback destructured away (`instanceConfigRest`). -/
def instRest (c : Conf) : Conf :=
  removeKeys c [.params, .body, .response, .handleResponse]

/-- The validation / build / request-intercept phase of `#fetch`, from the
`\x7b...instanceConfigRest, ...callConfig, ...callConfigOverrides\x7d`
merge to the resolved `finalRequest`.  On failure it reports the thrown
value together with `currentRequest`, the latest successfully built
request at that point: the bare pre-validation request when a schema
rejects, the parameterised built request when the request pipeline
rejects (the `currentRequest = await this.#requestPipe(...)` assignment
only lands after the whole pipe resolves). -/
def buildFinalRequest (icfgRest callC : Conf) (ovr : Option Conf)
    (paramSchema bodySchema : SchemaM) (reqCbs : List ReqCb)
    (stack : Option String) : Except (Thrown × RequestV) RequestV :=
  let merged := spread (spread icfgRest callC) (ovr.getD emptyConf)
  let stringUrl := resolveUrlString merged
  let nativeConfig := removeKeys merged [.body, .params, .url]
  let req0 := mkRequest (parseUrlString stringUrl) nativeConfig .vundefined
  match parseParamsPiped paramSchema (inputVal merged .params) with
  | .error e => .error (.err e, req0)
  | .ok params =>
    match parseWithMap bodySchema "Body" (inputVal merged .body) with
    | .error e => .error (.err e, req0)
    | .ok bodyV =>
      let req1 := mkRequest (setUrlParams stringUrl params) nativeConfig bodyV
      match runRequestPipe reqCbs req1 stack with
      | .ok fr => .ok fr
      | .error t => .error (t, req1)

/-- The request phase of one call: the instance config is resolved from
`inst`, while the request pipeline is built from `instReq`, the state of
the (mutable) instance at the moment `this.#requestPipe` is read — which
is after the validation promises resolve, not at call start. -/
def requestPhase (inst instReq : Liaison) (call : CallConf) (ovr : Option Conf)
    (stack : Option String) : Except (Thrown × RequestV) RequestV :=
  let icfg := (configGet inst).1
  buildFinalRequest (instRest icfg) call.conf ovr
    (slotSchema icfg .params) (slotSchema icfg .body)
    (getRequestInterceptors instReq) stack

/-- The transport / status-check / response-intercept / unwrap /
response-validation chain of `#fetch` (the `fetch(finalRequest).then(...)`
pipeline before its `.catch`). -/
def responsePhase (transport : RequestV → Except Thrown ResponseV) (fr : RequestV)
    (resCbs : List ResCb) (handleResponse : Option (ResponseV → Except Thrown Val))
    (responseSchema : SchemaM) (stack : Option String) : Except Thrown Val :=
  match transport fr with
  | .error t => .error t
  | .ok res =>
    match handleServerError res with
    | .error t => .error t
    | .ok res1 =>
      match runResponsePipe resCbs res1 fr stack with
      | .error t => .error t
      | .ok res2 =>
        match (handleResponse.getD unwrapRespone) res2 with
        | .error t => .error t
        | .ok unwrapped =>
          match parseWithMap responseSchema "Response" unwrapped with
          | .error e => .error (.err e)
          | .ok v => .ok v

/-- One `.catch` handler of `#fetch`: coerce the failure, run the error
pipeline with the given request context and stage, and re-throw the
pipeline's final value (or whatever the pipeline itself threw). -/
def routeError (errCbs : List ErrCb) (t : Thrown) (req : RequestV) (stage : Stage)
    (stack : Option String) : Thrown :=
  match runErrorPipe errCbs (coerceError t) req stage stack with
  | .ok e2 => .err e2
  | .error x => x

/-- Embedding of `Liaison.#fetch` with the observation points of the
mutable instance made explicit: `inst` is its state when the call begins
(`this.config` is read there), `instReq` when `this.#requestPipe` is read
(after validation resolves), `instRes` when `this.#responsePipe` is read
(after the transport resolves), and `instErr` when `this.#errorPipe` is
read (at the moment a failure is routed; each call routes at most one
failure).  The pipe getters rebuild their pipelines from the instance
chain at each of those moments — nothing is snapshotted at call start. -/
def liaisonFetchT (inst instReq instRes instErr : Liaison) (call : CallConf)
    (transport : RequestV → Except Thrown ResponseV) (stack : Option String) :
    Except Thrown Val :=
  let icfg := (configGet inst).1
  match applyOverride call.override icfg with
  | .error t => .error t
  | .ok ovr =>
    match requestPhase inst instReq call ovr stack with
    | .error (t, cur) =>
      .error (routeError (getErrorInterceptors instErr) t cur .request stack)
    | .ok fr =>
      match responsePhase transport fr (getResponseInterceptors instRes)
          (slotHandler icfg) (slotSchema icfg .response) stack with
      | .error t =>
        .error (routeError (getErrorInterceptors instErr) t fr .response stack)
      | .ok v => .ok v

/-- `#fetch` when no concurrent mutation of the instance happens during
the call: every observation point sees the same state. -/
def liaisonFetch (l : Liaison) (call : CallConf)
    (transport : RequestV → Except Thrown ResponseV) (stack : Option String) :
    Except Thrown Val :=
  liaisonFetchT l l l l call transport stack

/-- Embedding of `go`: resolves with the validated value or rejects with
the final (pipeline-processed) error. -/
def go (l : Liaison) (call : CallConf)
    (transport : RequestV → Except Thrown ResponseV) (stack : Option String) :
    Except Thrown Val :=
  liaisonFetch l call transport stack

/-- Embedding of `safeGo`: `try \x7b return [await this.#fetch(config),
null] \x7d catch (error) \x7b return [null, coerceError(error)] \x7d` — a
total two-slot result, never a rejection. -/
def safeGo (l : Liaison) (call : CallConf)
    (transport : RequestV → Except Thrown ResponseV) (stack : Option String) :
    Option Val × Option LErr :=
  match liaisonFetch l call transport stack with
  | .ok v => (some v, none)
  | .error t => (none, some (coerceError t))

/-- Replace every registry along a chain (used to express that a call's
outcome is independent of the interceptor lists as they stood at call
start). -/
def mapRegs (f : Registry → Registry) : Liaison → Liaison
  | .root c r => .root c (f r)
  | .extend p c r => .extend (mapRegs f p) c (f r)

/-- Reference definition following the spec's words for `pipelineFor`:
visit the extension chain from root to leaf (earliest ancestor first) and
concatenate each instance's registration-ordered request list. -/
def specRequestInterceptors : Liaison → List ReqCb
  | .root _ r => r.request
  | .extend p _ r => specRequestInterceptors p ++ r.request

/-- Spec-shaped root-to-leaf concatenation for the response event. -/
def specResponseInterceptors : Liaison → List ResCb
  | .root _ r => r.response
  | .extend p _ r => specResponseInterceptors p ++ r.response

/-- Spec-shaped root-to-leaf concatenation for the error event. -/
def specErrorInterceptors : Liaison → List ErrCb
  | .root _ r => r.error
  | .extend p _ r => specErrorInterceptors p ++ r.error

/-- A config defining only `url`. -/
def confUrl (u : String) : Conf := fun k =>
  if k = CKey.url then some (.prim (.vstr u)) else none

/-- Override the `url` key of a config with a given value. -/
def withUrl (v : Val) (c : Conf) : Conf := fun k =>
  if k = CKey.url then some (.prim v) else c k

/-- Remove the `url` key from a config. -/
def dropUrl (c : Conf) : Conf := fun k =>
  if k = CKey.url then none else c k

/-- A three-level extension chain root → mid → leaf built from three own
configs (fresh interceptor registries). -/
def chain3 (r m l : Conf) : Liaison :=
  .extend (.extend (.root r emptyReg) m emptyReg) l emptyReg

/-- Closest-definition-wins lookup over a three-level chain, written the
way the spec states it: the value of the instance nearest the leaf that
defines the key. -/
def nearestWins3 (r m l : Conf) : Conf := fun k =>
  match l k with
  | some v => some v
  | none =>
    match m k with
    | some v => some v
    | none => r k

/-- A 200 text/plain response with the given body text. -/
def textResponse (s : String) : ResponseV :=
  ⟨200, "OK", "basic", [("content-type", "text/plain")], s, .ok .vnull⟩

/-- Render a query list the way a URL serializes its search params. -/
def renderQuery (q : List (String × String)) : String :=
  String.intercalate "&" (q.map (fun p => p.1 ++ "=" ++ p.2))

/-- A transport stub that reports back the URL base it was called with. -/
def echoBaseTransport : RequestV → Except Thrown ResponseV :=
  fun req => .ok (textResponse req.url.base)

/-- A transport stub that reports back the query string it was called with. -/
def echoQueryTransport : RequestV → Except Thrown ResponseV :=
  fun req => .ok (textResponse (renderQuery req.url.query))

/-- Scenario: a plain instance with just a URL. -/
def wInst : Liaison := .root (confUrl "/x") emptyReg

/-- A transport that always succeeds with body text "hi". -/
def wTr : RequestV → Except Thrown ResponseV := fun _ => .ok (textResponse "hi")

/-- A transport that fails with a raw (non-Error) thrown value. -/
def wTrF : RequestV → Except Thrown ResponseV := fun _ => .error (.raw (.vstr "boom"))

/-- A body schema that rejects every input. -/
def failingBodySchema : SchemaM := fun _ => .error "Required"

/-- Scenario config for the error-routing witness: a URL plus a body
schema factory whose schema rejects everything. -/
def c4conf : Conf := fun k =>
  match k with
  | CKey.url => some (.prim (.vstr "/w4"))
  | CKey.body => some (.schemaFn (fun _ => failingBodySchema))
  | _ => none

/-- Scenario instance whose body validation always fails. -/
def w4 : Liaison := .root c4conf emptyReg

/-- A transport stub never reached in the error-routing witness. -/
def tr4 : RequestV → Except Thrown ResponseV := fun _ => .ok (textResponse "unused")

/-- The bare pre-validation request the error-routing witness reports. -/
def req0w4 : RequestV := ⟨⟨"/w4", []⟩, .vundefined, .vundefined, .vundefined⟩

/-- A concrete failing response (status 404). -/
def res404 : ResponseV := ⟨404, "Not Found", "basic", [], "nope", .ok .vnull⟩

/-- Scenario instance for the pipeline-timing counterexample. -/
def inst0 : Liaison := .root (confUrl "/c6") emptyReg

/-- A request interceptor that tags the outgoing request's query string. -/
def tagCb : ReqCb := fun r _ =>
  .ok ⟨⟨r.url.base, r.url.query ++ [("tag", "late")]⟩, r.method, r.headers, r.body⟩

/-- The same instance after `addInterceptor("request", tagCb)` ran — the
state a concurrent registration produces after the call began. -/
def instB : Liaison := addRequestInterceptor inst0 tagCb

/-- Scenario instance for the override counterexample. -/
def instC7 : Liaison := .root (confUrl "/a") emptyReg

/-- An object-shaped (non-function) override fragment setting `url`. -/
def callOobj : CallConf := ⟨emptyConf, some (.oobj (confUrl "/b"))⟩

/-- A call passing `url` in the call config and a function override that
sets a different `url`, to exhibit the merge precedence. -/
def callOfn : CallConf := ⟨confUrl "/b", some (.ofn (fun _ => confUrl "/c"))⟩

/-- End-to-end example B: a params schema accepting exactly `(id: string)`
records. -/
def idSchema : SchemaM := fun v =>
  match v with
  | .vrec [("id", .vstr s)] => .ok (.vrec [("id", .vstr s)])
  | _ => .error "Required"

/-- End-to-end example B instance config: a URL and the `id` params schema
factory. -/
def exBConf : Conf := fun k =>
  match k with
  | CKey.url => some (.prim (.vstr "/things"))
  | CKey.params => some (.schemaFn (fun _ => idSchema))
  | _ => none

/-- End-to-end example B instance. -/
def exBInst : Liaison := .root exBConf emptyReg

/-- End-to-end example B call: `params: (id: "42")`. -/
def exBCall : CallConf :=
  ⟨fun k => if k = CKey.params then some (.prim (.vrec [("id", .vstr "42")])) else none,
   none⟩

/-- Scenario instance that defines no `url` anywhere. -/
def noUrlInst : Liaison := .root emptyConf emptyReg

/-- Scenario root instance (no `extends`) for the stored-config mutation
bug: only a `url` is passed, `params` is absent. -/
def demoRoot : Liaison := .root (confUrl "/x") emptyReg

theorem chainList_extend (p : Liaison) (c : Conf) (r : Registry) :
    chainList (.extend p c r) = chainList p ++ [.extend p c r] := by
  simp [chainList, walkUp]

theorem getRequestInterceptors_extend (p : Liaison) (c : Conf) (r : Registry) :
    getRequestInterceptors (.extend p c r) = getRequestInterceptors p ++ r.request := by
  simp [getRequestInterceptors, chainList_extend, Liaison.ints]

theorem getResponseInterceptors_extend (p : Liaison) (c : Conf) (r : Registry) :
    getResponseInterceptors (.extend p c r) = getResponseInterceptors p ++ r.response := by
  simp [getResponseInterceptors, chainList_extend, Liaison.ints]

theorem getErrorInterceptors_extend (p : Liaison) (c : Conf) (r : Registry) :
    getErrorInterceptors (.extend p c r) = getErrorInterceptors p ++ r.error := by
  simp [getErrorInterceptors, chainList_extend, Liaison.ints]

/-- C1: Config resolution is closest-definition-wins.  For a three-level
chain root → mid → leaf, the resolved config at every key is the value of
the instance nearest the leaf that defines it (ancestors acting only as
fallback defaults), composed with the pointwise schema materialization
the getter performs on the three schema-bearing keys.  In particular, if
root, mid and leaf each set `url` the resolved `url` is the leaf's value,
and if leaf omits `url` but mid sets it the resolved `url` is mid's. -/
theorem liaison_config_closest_wins :
    (∀ r m l : Conf, ∀ k : CKey,
        (configGet (chain3 r m l)).1 k = materialize (nearestWins3 r m l) k)
    ∧ (∀ r m l : Conf, ∀ u1 u2 u3 : Val,
        (configGet (chain3 (withUrl u1 r) (withUrl u2 m) (withUrl u3 l))).1 CKey.url
          = some (.prim u3))
    ∧ (∀ r m l : Conf, ∀ u1 u2 : Val,
        (configGet (chain3 (withUrl u1 r) (withUrl u2 m) (dropUrl l))).1 CKey.url
          = some (.prim u2)) := by
  refine ⟨?_, ?_, ?_⟩
  · intro r m l k
    show materialize (spread r (spread m l)) k = materialize (nearestWins3 r m l) k
    have h : spread r (spread m l) k = nearestWins3 r m l k := by
      simp only [spread, nearestWins3]
      cases l k <;> cases m k <;> rfl
    simp only [materialize, h]
  · intro r m l u1 u2 u3
    rfl
  · intro r m l u1 u2
    rfl

/-- C2: For every event the pipeline of an instance is the concatenation
of the interceptor lists of its extension chain visited root to leaf
(earliest ancestor first, registration order within each instance — the
first three conjuncts identify the source's walk-and-reverse with the
spec's root-to-leaf concatenation), the composed pipe is a strict
left-to-right fold in which each callback receives the previous
callback's resolved output plus the shared context (fourth conjunct), and
consequently an interceptor `r1` registered on a root instance runs
before an `r2` registered on its leaf extension, `r2` receiving `r1`'s
returned request as its input (last conjunct). -/
theorem liaison_interceptor_pipeline_order :
    (∀ l : Liaison, getRequestInterceptors l = specRequestInterceptors l)
    ∧ (∀ l : Liaison, getResponseInterceptors l = specResponseInterceptors l)
    ∧ (∀ l : Liaison, getErrorInterceptors l = specErrorInterceptors l)
    ∧ (∀ (cbs1 cbs2 : List ReqCb) (acc : RequestV) (stack : Option String),
        runRequestPipe (cbs1 ++ cbs2) acc stack
          = match runRequestPipe cbs1 acc stack with
            | .ok a => runRequestPipe cbs2 a stack
            | .error t => .error t)
    ∧ (∀ (c1 c2 : Conf) (r1 r2 : ReqCb) (req : RequestV) (stack : Option String),
        runRequestPipe
          (getRequestInterceptors (.extend (.root c1 ⟨[r1], [], []⟩) c2 ⟨[r2], [], []⟩))
          req stack
          = (r1 req stack).bind (fun q => r2 q stack)) := by
  refine ⟨?_, ?_, ?_, ?_, ?_⟩
  · intro l
    induction l with
    | root c r => simp [getRequestInterceptors, chainList, walkUp, Liaison.ints, specRequestInterceptors]
    | extend p c r ih => simp [getRequestInterceptors_extend, specRequestInterceptors, ih]
  · intro l
    induction l with
    | root c r => simp [getResponseInterceptors, chainList, walkUp, Liaison.ints, specResponseInterceptors]
    | extend p c r ih => simp [getResponseInterceptors_extend, specResponseInterceptors, ih]
  · intro l
    induction l with
    | root c r => simp [getErrorInterceptors, chainList, walkUp, Liaison.ints, specErrorInterceptors]
    | extend p c r ih => simp [getErrorInterceptors_extend, specErrorInterceptors, ih]
  · intro cbs1 cbs2 acc stack
    induction cbs1 generalizing acc with
    | nil => rfl
    | cons cb rest ih =>
      simp only [List.cons_append, runRequestPipe]
      cases cb acc stack with
      | ok a => exact ih a
      | error t => rfl
  · intro c1 c2 r1 r2 req stack
    show runRequestPipe [r1, r2] req stack = (r1 req stack).bind (fun q => r2 q stack)
    simp only [runRequestPipe]
    cases r1 req stack with
    | ok q =>
      simp only [Except.bind]
      cases r2 q stack <;> rfl
    | error t => rfl

/-- C3: The two entry points agree over the same internal outcome.
`safeGo` is a total function into a two-slot pair — the embedding of a
promise that always resolves, never rejects.  Whenever `go` resolves with
`v`, `safeGo` resolves to `(v, null)`; whenever `go` rejects with an error
`e`, `safeGo` resolves to `(null, e)` (and for a raw non-Error rejection,
to `(null, coerceError ...)`, which on an `Error` is the identity). -/
theorem liaison_go_safego_agree :
    ∀ (l : Liaison) (call : CallConf) (tr : RequestV → Except Thrown ResponseV)
      (stack : Option String),
      (∀ v, go l call tr stack = .ok v → safeGo l call tr stack = (some v, none))
      ∧ (∀ t, go l call tr stack = .error t →
          safeGo l call tr stack = (none, some (coerceError t)))
      ∧ (∀ e, go l call tr stack = .error (.err e) →
          safeGo l call tr stack = (none, some e)) := by
  intro l call tr stack
  refine ⟨?_, ?_, ?_⟩
  · intro v h
    have h2 : liaisonFetch l call tr stack = .ok v := h
    simp [safeGo, h2]
  · intro t h
    have h2 : liaisonFetch l call tr stack = .error t := h
    simp [safeGo, h2]
  · intro e h
    have h2 : liaisonFetch l call tr stack = .error (.err e) := h
    simp [safeGo, h2, coerceError]

/-- Witness for C3: a succeeding and a failing run, the latter through a
raw (non-Error) transport rejection that the error path coerces. -/
theorem liaison_go_safego_agree_witness :
    safeGo wInst emptyCall wTr none = (some (.vstr "hi"), none)
    ∧ safeGo wInst emptyCall wTrF none = (none, some ⟨"Error", "\"boom\""⟩) :=
  ⟨(liaison_go_safego_agree wInst emptyCall wTr none).1 (.vstr "hi") (by rfl),
   (liaison_go_safego_agree wInst emptyCall wTrF none).2.2 ⟨"Error", "\"boom\""⟩ (by rfl)⟩

/-- C4: Error routing.  Under a resolved override, a failure of the
validation/build/request-intercept phase is coerced and routed through the
error pipeline with the latest successfully built request and stage
"request"; a failure of the transport/status-check/response-intercept/
unwrap/response-validation phase is routed with stage "response"; the
error pipeline's final returned value becomes the call's terminal error;
and a call that entered the error path never resolves as success. -/
theorem liaison_error_routing :
    ∀ (inst instReq instRes instErr : Liaison) (call : CallConf)
      (tr : RequestV → Except Thrown ResponseV) (stack : Option String)
      (ovr : Option Conf),
      applyOverride call.override (configGet inst).1 = .ok ovr →
      ((∀ t cur, requestPhase inst instReq call ovr stack = .error (t, cur) →
          liaisonFetchT inst instReq instRes instErr call tr stack
            = .error (routeError (getErrorInterceptors instErr) t cur .request stack)
          ∧ (∀ e2, runErrorPipe (getErrorInterceptors instErr) (coerceError t) cur
                .request stack = .ok e2 →
              liaisonFetchT inst instReq instRes instErr call tr stack = .error (.err e2))
          ∧ (∀ v, liaisonFetchT inst instReq instRes instErr call tr stack ≠ .ok v))
       ∧ (∀ fr t, requestPhase inst instReq call ovr stack = .ok fr →
          responsePhase tr fr (getResponseInterceptors instRes)
              (slotHandler (configGet inst).1) (slotSchema (configGet inst).1 .response)
              stack = .error t →
          liaisonFetchT inst instReq instRes instErr call tr stack
            = .error (routeError (getErrorInterceptors instErr) t fr .response stack)
          ∧ (∀ v, liaisonFetchT inst instReq instRes instErr call tr stack ≠ .ok v))
       ∧ (∀ fr v, requestPhase inst instReq call ovr stack = .ok fr →
          responsePhase tr fr (getResponseInterceptors instRes)
              (slotHandler (configGet inst).1) (slotSchema (configGet inst).1 .response)
              stack = .ok v →
          liaisonFetchT inst instReq instRes instErr call tr stack = .ok v)) := by
  intro inst instReq instRes instErr call tr stack ovr hov
  refine ⟨?_, ?_, ?_⟩
  · intro t cur hreq
    have hmain : liaisonFetchT inst instReq instRes instErr call tr stack
        = .error (routeError (getErrorInterceptors instErr) t cur .request stack) := by
      simp only [liaisonFetchT, hov, hreq]
    refine ⟨hmain, ?_, ?_⟩
    · intro e2 he2
      rw [hmain]
      simp only [routeError, he2]
    · intro v h
      rw [hmain] at h
      exact Except.noConfusion h
  · intro fr t hreq hres
    have hmain : liaisonFetchT inst instReq instRes instErr call tr stack
        = .error (routeError (getErrorInterceptors instErr) t fr .response stack) := by
      simp only [liaisonFetchT, hov, hreq, hres]
    refine ⟨hmain, ?_⟩
    intro v h
    rw [hmain] at h
    exact Except.noConfusion h
  · intro fr v hreq hres
    simp only [liaisonFetchT, hov, hreq, hres]

/-- Witness for C4: an instance whose body validation always fails; the
call terminates with the coerced, pipeline-processed validation error
(stage "request", context: the bare pre-validation request). -/
theorem liaison_error_routing_witness :
    liaisonFetchT w4 w4 w4 w4 emptyCall tr4 none
      = .error (.err ⟨"ZodError", "Body schema | Required"⟩) :=
  ((liaison_error_routing w4 w4 w4 w4 emptyCall tr4 none none rfl).1
      (.err ⟨"ZodError", "Body schema | Required"⟩) req0w4 (by rfl)).2.1
    ⟨"ZodError", "Body schema | Required"⟩ (by rfl)

/-- C5: The status check passes any response with status in the inclusive
range 200-299 (`res.ok`) through unmodified, and converts any other
response into a rejection whose error message carries the exact status
code, the status text and the body read as text. -/
theorem liaison_status_check :
    ∀ res : ResponseV,
      (res.ok = (200 ≤ res.status && res.status ≤ 299))
      ∧ (res.ok = true → handleServerError res = .ok res)
      ∧ (res.ok = false →
          handleServerError res = .error (.err ⟨"Error",
            "code: " ++ toString res.status ++ ", " ++
            "type: " ++ res.rtype ++ ", " ++
            "text: \"" ++ res.statusText ++ ", " ++
            "server-response: " ++ res.textV⟩)) := by
  intro res
  refine ⟨rfl, ?_, ?_⟩ <;> intro h <;> simp [handleServerError, h]

/-- Witness for C5: status 200 passes through, status 404 rejects with the
message carrying code, status text and body text. -/
theorem liaison_status_check_witness :
    handleServerError (textResponse "hi") = .ok (textResponse "hi")
    ∧ handleServerError res404 = .error (.err ⟨"Error",
        "code: " ++ toString res404.status ++ ", " ++
        "type: " ++ res404.rtype ++ ", " ++
        "text: \"" ++ res404.statusText ++ ", " ++
        "server-response: " ++ res404.textV⟩) :=
  ⟨(liaison_status_check (textResponse "hi")).2.1 rfl,
   (liaison_status_check res404).2.2 rfl⟩

/-- Counterexample to C6.  The claim says a call's pipelines are
snapshotted synchronously at the moment the call begins, so an interceptor
added after the call began is never invoked by that call.  In the source,
`this.#requestPipe` is a getter evaluated only inside the `.then` that
runs after the validation promises resolve; two runs that agree on the
instance state at call start (`inst0`, registry empty) but differ at that
later read point (`instB` has `tagCb` registered, the state produced by an
`addInterceptor` that happened after the call began) produce different
outcomes — the late-added interceptor IS invoked. -/
theorem liaison_pipeline_snapshot_counterexample :
    liaisonFetchT inst0 instB inst0 inst0 emptyCall echoQueryTransport none
      = .ok (.vstr "tag=late")
    ∧ liaisonFetchT inst0 inst0 inst0 inst0 emptyCall echoQueryTransport none
      = .ok (.vstr "")
    ∧ liaisonFetchT inst0 instB inst0 inst0 emptyCall echoQueryTransport none
      ≠ liaisonFetchT inst0 inst0 inst0 inst0 emptyCall echoQueryTransport none := by
  have h1 : liaisonFetchT inst0 instB inst0 inst0 emptyCall echoQueryTransport none
      = .ok (.vstr "tag=late") := by rfl
  have h2 : liaisonFetchT inst0 inst0 inst0 inst0 emptyCall echoQueryTransport none
      = .ok (.vstr "") := by rfl
  refine ⟨h1, h2, ?_⟩
  intro h
  rw [h1, h2] at h
  injection h with h3
  injection h3 with h4
  exact absurd h4 (by decide)

/-- Amended C6: pipelines are not snapshotted at call start but built
fresh from the instance chain at their points of use within the call (the
request pipeline when validation resolves, the response pipeline when the
transport resolves, the error pipeline when a failure is routed).
Consequently a call's outcome is independent of the interceptor registries
as they stood at call start: replacing every registry of the
call-start-observed instance changes nothing, because that observation
only supplies the resolved config.  (Together with the definition of
`liaisonFetchT`, whose pipelines come from the states observed at the
three later read points, and the counterexample above, this pins down the
lazy-build semantics; a new call started after a cancellation sees the
post-cancellation registry at every read point and so excludes the
cancelled interceptor.) -/
theorem liaison_pipeline_lazy_build :
    ∀ (f : Registry → Registry) (inst instReq instRes instErr : Liaison)
      (call : CallConf) (tr : RequestV → Except Thrown ResponseV)
      (stack : Option String),
      liaisonFetchT (mapRegs f inst) instReq instRes instErr call tr stack
        = liaisonFetchT inst instReq instRes instErr call tr stack := by
  have hmerge : ∀ (f : Registry → Registry) (p : Liaison) (acc : Conf),
      mergeUp (mapRegs f p) acc = mergeUp p acc := by
    intro f p
    induction p with
    | root c r => intro acc; rfl
    | extend pp c r ih => intro acc; exact ih (spread c acc)
  have hcfg : ∀ (f : Registry → Registry) (l : Liaison),
      (configGet (mapRegs f l)).1 = (configGet l).1 := by
    intro f l
    cases l with
    | root c r => rfl
    | extend p c r =>
      show materialize (mergeUp (mapRegs f p) c) = materialize (mergeUp p c)
      rw [hmerge]
  intro f inst instReq instRes instErr call tr stack
  simp only [liaisonFetchT, requestPhase, hcfg]

/-- Counterexample to C7.  The claim says a non-function `override` value
is used as a merge fragment directly.  The source invokes
`callConfig.override?.(instanceConfig)` unconditionally, so an
object-shaped override is optional-called as a function and the call
rejects with a TypeError before any merge; the object's `url` fragment is
not used (a function override producing the same fragment yields a
successful call to that URL instead). -/
theorem liaison_object_override_counterexample :
    liaisonFetch instC7 callOobj echoBaseTransport none
      = .error (.err ⟨"TypeError", "callConfig.override is not a function"⟩)
    ∧ liaisonFetch instC7 ⟨emptyConf, some (.ofn (fun _ => confUrl "/b"))⟩
        echoBaseTransport none = .ok (.vstr "/b")
    ∧ liaisonFetch instC7 callOobj echoBaseTransport none ≠ .ok (.vstr "/b") := by
  refine ⟨by rfl, by rfl, ?_⟩
  intro h
  have h1 : liaisonFetch instC7 callOobj echoBaseTransport none
      = .error (.err ⟨"TypeError", "callConfig.override is not a function"⟩) := by rfl
  rw [h1] at h
  exact Except.noConfusion h

/-- Amended C7: the `override`, when present, must be a function; it is
called with the resolved instance config to obtain the override fragment
(first conjunct), and the final per-call config is merged with precedence
lowest to highest: resolved instance config, then call config, then the
override fragment (second conjunct characterizes the double spread; the
third exhibits it end to end: instance url "/a" < call url "/b" < override
url "/c"). -/
theorem liaison_override_merge_amended :
    (∀ (icfg : Conf) (f : Conf → Conf),
        applyOverride (some (.ofn f)) icfg = .ok (some (f icfg)))
    ∧ (∀ (a b c : Conf) (k : CKey),
        spread (spread a b) c k
          = match c k with
            | some v => some v
            | none =>
              match b k with
              | some v => some v
              | none => a k)
    ∧ liaisonFetch instC7 callOfn echoBaseTransport none = .ok (.vstr "/c") := by
  refine ⟨fun _ _ => rfl, ?_, by rfl⟩
  intro a b c k
  simp only [spread]

theorem setUrlParams_fold :
    ∀ (ps : List (String × ParamVal)) (u : UrlV),
      ps.foldl
          (fun u kv => ⟨u.base, u.query ++ (flatParam kv.2).map (fun v => (kv.1, v))⟩) u
        = ⟨u.base, u.query ++ ps.flatMap (fun kv => (flatParam kv.2).map (fun v => (kv.1, v)))⟩ := by
  intro ps
  induction ps with
  | nil => intro u; simp
  | cons kv rest ih =>
    intro u
    simp only [List.foldl_cons, List.flatMap_cons, ih, List.append_assoc]

/-- C8: Query-string construction from validated params.  `setUrlParams`
appends, for each record entry in order, one query-parameter occurrence
per flattened value (repeated keys for arrays in array order, a single
occurrence for plain strings) after the URL's own query (first conjunct).
End-to-end example B: a `params` schema requiring an `id` string, invoked
with `id = "42"`, produces a transport request whose query string is
exactly `id=42` (second conjunct).  A params-schema output that is not a
flat record of string or string-array values fails with the serialization
error (third conjunct), which is distinct from a generic params validation
error (fourth and fifth conjuncts). -/
theorem liaison_params_query_serialization :
    (∀ (info : String) (ps : List (String × ParamVal)),
        setUrlParams info ps
          = ⟨(parseUrlString info).base,
             (parseUrlString info).query
               ++ ps.flatMap (fun kv => (flatParam kv.2).map (fun v => (kv.1, v)))⟩)
    ∧ liaisonFetch exBInst exBCall echoQueryTransport none = .ok (.vstr "id=42")
    ∧ parseParamsPiped zUnknown (.vnum 5)
        = .error ⟨"ZodError", serializationErrMsg (addErrorMapMsg "URL params" unionDefaultMsg)⟩
    ∧ parseParamsPiped failingBodySchema .vundefined
        = .error ⟨"ZodError", addErrorMapMsg "URL params" "Required"⟩
    ∧ serializationErrMsg (addErrorMapMsg "URL params" unionDefaultMsg)
        ≠ addErrorMapMsg "URL params" unionDefaultMsg := by
  refine ⟨?_, by rfl, by rfl, by rfl, by decide⟩
  intro info ps
  exact setUrlParams_fold ps (parseUrlString info)

/-- C9 (code bug): computing the resolved config is claimed to leave the
instance's stored `partial` config unchanged, but for an instance with no
`extends` the getter's local `opts` aliases `this.partial`, so reading
`config` writes the materialized schema defaults into the stored config:
for a root instance constructed with only a `url`, the stored `params`
slot changes from absent to the accept-anything schema.  (With a parent
present the first spread copies, and no stored config is written — fourth
conjunct.) -/
theorem liaison_config_getter_mutates_root :
    demoRoot.own CKey.params = none
    ∧ ((configGet demoRoot).2).own CKey.params = some (.schemaV zUnknown)
    ∧ ((configGet demoRoot).2).own CKey.params ≠ demoRoot.own CKey.params
    ∧ (∀ (p : Liaison) (c : Conf) (ints : Registry),
        (configGet (.extend p c ints)).2 = .extend p c ints) := by
  refine ⟨rfl, rfl, ?_, fun p c ints => rfl⟩
  intro h
  have h2 : some (CVal.schemaV zUnknown) = (none : Option CVal) := h
  exact Option.noConfusion h2

/-- C10: If no `url` is defined anywhere — neither by the extension chain
nor by the call config nor by the override — the destructuring default
substitutes the literal placeholder string, no missing-url error is
raised, and the call proceeds to the transport stage with that request
(the transport observes the placeholder as the URL base and the call
succeeds). -/
theorem liaison_missing_url_placeholder :
    (∀ m : Conf, m CKey.url = none →
        resolveUrlString m = "somehow a missing URL found its way")
    ∧ liaisonFetch noUrlInst emptyCall echoBaseTransport none
        = .ok (.vstr "somehow a missing URL found its way") := by
  refine ⟨?_, by rfl⟩
  intro m h
  simp [resolveUrlString, h]

/-- Witness for C10: the empty config has no `url`, and resolving its URL
yields the placeholder. -/
theorem liaison_missing_url_placeholder_witness :
    emptyConf CKey.url = none
    ∧ resolveUrlString emptyConf = "somehow a missing URL found its way" :=
  ⟨rfl, liaison_missing_url_placeholder.1 emptyConf rfl⟩
